import Mathlib

/-!
Verification development for the legislative-acts-analyzer frontend
(`src/frontend/app/page.tsx`).

The component `LegislativeActsAnalyzer` keeps four pieces of React state
(`uploadedFile`, `analyses`, `selectedAnalysis`, `isAnalyzing`) and exposes
the event handlers `handleFileUpload`, `handleAnalyze`, `handleRemove`,
`handleExportTXT` (and a stubbed `handleExportPDF`).  We embed that state
machine shallowly: each handler becomes a pure function on an explicit
`AppState`; the nondeterministic environment inputs (`Date.now()`,
`new Date().toLocaleString()`, and the outcome of `file.text()`) become
explicit parameters.
-/

namespace LegislativeActsAnalyzer

/-- Model of JavaScript `String.prototype.split` with a one-character
separator, over the character list of the string: splitting at every
occurrence of the separator, so the result always has (number of
occurrences + 1) segments, and `"".split(sep)` is `[""]`. -/
def jsSplitChar (sep : Char) : List Char → List (List Char)
  | [] => [[]]
  | c :: cs =>
    let rest := jsSplitChar sep cs
    if c = sep then [] :: rest
    else
      match rest with
      | [] => [[c]]
      | seg :: segs => (c :: seg) :: segs

/-- The word count computed by the source's
`fileContent.split(" ").length`. -/
def jsWordCount (content : String) : Nat :=
  (jsSplitChar ' ' content.toList).length

/-- The line count computed by the source's
`fileContent.split("\n").length`. -/
def jsLineCount (content : String) : Nat :=
  (jsSplitChar '\n' content.toList).length

/-- The fixed summary template of `handleAnalyze`, with the file name and
the two reported counts spliced in (source line 51). -/
def summaryTemplate (name : String) (words lines : Nat) : String :=
  "Analysis of " ++ name ++ ":\n\nThis legislative act contains " ++
  toString words ++ " words and " ++ toString lines ++
  " lines.\n\nKey sections identified:\n- Preamble\n- Main provisions\n- Enforcement clauses\n\nSummary: This document outlines legislative provisions..."

/-- The `mockAnalysis` string built by `handleAnalyze` from the decoded
file content (source line 51). -/
def mockAnalysis (name content : String) : String :=
  summaryTemplate name (jsWordCount content) (jsLineCount content)

instance {ε α : Type} [DecidableEq ε] [DecidableEq α] :
    DecidableEq (Except ε α) := fun a b => by
  cases a <;> cases b
  · exact decidable_of_iff _ (Except.error.injEq _ _).symm.to_iff
  · exact isFalse (by simp)
  · exact isFalse (by simp)
  · exact decidable_of_iff _ (Except.ok.injEq _ _).symm.to_iff

/-- A held file: its name together with the outcome of `file.text()`
(`.ok` the decoded content, `.error` a thrown decode error). -/
structure UFile where
  name : String
  text : Except String String
deriving DecidableEq, Repr

/-- The `Analysis` interface of the source (lines 11-17). -/
structure Analysis where
  id : String
  filename : String
  date : String
  content : String
  originalText : String
deriving DecidableEq, Repr

/-- The four `useState` cells of the component (lines 20-23). -/
structure AppState where
  uploadedFile : Option UFile
  analyses : List Analysis
  selectedAnalysis : Option Analysis
  isAnalyzing : Bool
deriving DecidableEq, Repr

/-- The initial state of the component: no file, empty history, nothing
selected, not analyzing (lines 20-23). -/
def initialState : AppState :=
  { uploadedFile := none, analyses := [], selectedAnalysis := none,
    isAnalyzing := false }

/-- `handleFileUpload` (lines 25-30): takes `e.target.files?.[0]`; if
absent it returns, otherwise it stores the file reference. -/
def handleFileUpload (file? : Option UFile) (s : AppState) : AppState :=
  match file? with
  | none => s
  | some file => { s with uploadedFile := some file }

/-- The record `handleAnalyze` constructs on success (lines 53-59):
`id` is `Date.now().toString()`, `date` is `new Date().toLocaleString()`
(modelled as an opaque display string supplied by the environment). -/
def mkAnalysisRecord (now : Nat) (dateStr : String)
    (name fileContent : String) : Analysis :=
  { id := toString now, filename := name, date := dateStr,
    content := mockAnalysis name fileContent, originalText := fileContent }

/-- `handleAnalyze` (lines 32-68).  Returns immediately when no file is
held.  Otherwise sets the busy flag, awaits `uploadedFile.text()`; on a
decode error the `catch` logs it and the `finally` clears the flag,
leaving everything else unchanged; on success it builds the record,
prepends it to `analyses`, selects it, and the `finally` clears the
flag. -/
def handleAnalyze (now : Nat) (dateStr : String) (s : AppState) : AppState :=
  match s.uploadedFile with
  | none => s
  | some file =>
    match file.text with
    | .error _ => { s with isAnalyzing := false }
    | .ok fileContent =>
      let newAnalysis := mkAnalysisRecord now dateStr file.name fileContent
      { s with analyses := newAnalysis :: s.analyses,
               selectedAnalysis := some newAnalysis,
               isAnalyzing := false }

/-- `handleRemove` (lines 70-72): clears the held-file reference. -/
def handleRemove (s : AppState) : AppState :=
  { s with uploadedFile := none }

/-- The downloadable artifact produced by `handleExportTXT`: download
name, blob MIME type, blob content. -/
structure Artifact where
  filename : String
  mimeType : String
  content : String
deriving DecidableEq, Repr

/-- `handleExportTXT` (lines 80-89): a no-op without a selection;
otherwise builds a `text/plain` blob holding the selected record's
`content` and downloads it as `<filename>_analysis.txt`. -/
def handleExportTXT (s : AppState) : Option Artifact :=
  match s.selectedAnalysis with
  | none => none
  | some a =>
    some { filename := a.filename ++ "_analysis.txt",
           mimeType := "text/plain", content := a.content }

/-- Clicking a history entry (line 224): `setSelectedAnalysis(analysis)`. -/
def selectAnalysis (a : Analysis) (s : AppState) : AppState :=
  { s with selectedAnalysis := some a }

/-- Spec-side split on a character class, JavaScript-style (used to state
what splitting on arbitrary whitespace would compute). -/
def jsSplitPred (p : Char → Bool) : List Char → List (List Char)
  | [] => [[]]
  | c :: cs =>
    let rest := jsSplitPred p cs
    if p c then [] :: rest
    else
      match rest with
      | [] => [[c]]
      | seg :: segs => (c :: seg) :: segs

/-- Spec-side word count: the number of whitespace-separated tokens of
the content, i.e. maximal runs of non-whitespace characters. -/
def whitespaceTokenCount (content : String) : Nat :=
  ((jsSplitPred Char.isWhitespace content.toList).filter
    (fun t => t ≠ [])).length

/-- Spec-side line count: the number of line-break-separated segments of
the content. -/
def lineBreakSegmentCount (content : String) : Nat :=
  (jsSplitChar '\n' content.toList).length

/-- A user-interface event of one session: choosing a file in the picker,
clicking Remove, clicking Analyze (with the `Date.now()` and locale date
string the environment supplies at that moment), or clicking a history
entry. -/
inductive Event where
  | upload (file? : Option UFile)
  | remove
  | analyze (now : Nat) (dateStr : String)
  | select (a : Analysis)
deriving DecidableEq, Repr

/-- Dispatch one event to the corresponding handler. -/
def applyEvent (s : AppState) : Event → AppState
  | .upload file? => handleFileUpload file? s
  | .remove => handleRemove s
  | .analyze now dateStr => handleAnalyze now dateStr s
  | .select a => selectAnalysis a s

/-- Run a session: apply a list of events in order. -/
def runEvents (s : AppState) : List Event → AppState
  | [] => s
  | e :: es => runEvents (applyEvent s e) es

/-- The `Date.now()` values of the analyze clicks of a session, in
order. -/
def analyzeTimes : List Event → List Nat
  | [] => []
  | .analyze now _ :: es => now :: analyzeTimes es
  | _ :: es => analyzeTimes es

/-- `handleAnalyze` either leaves the history untouched (no file held, or
the decode threw) or prepends exactly the record built from the current
time, date string, file name and decoded content. -/
lemma handleAnalyze_analyses_cases (now : Nat) (dateStr : String)
    (s : AppState) :
    (handleAnalyze now dateStr s).analyses = s.analyses ∨
    ∃ name c, (handleAnalyze now dateStr s).analyses =
      mkAnalysisRecord now dateStr name c :: s.analyses := by
  cases h : s.uploadedFile with
  | none => exact Or.inl (by simp [handleAnalyze, h])
  | some file =>
    cases ht : file.text with
    | error e => exact Or.inl (by simp [handleAnalyze, h, ht])
    | ok c => exact Or.inr ⟨file.name, c, by simp [handleAnalyze, h, ht]⟩

/-- On a successful run the head of the history is the freshly built
record, whose summary splices in the code's word and line counts. -/
lemma handleAnalyze_ok_head (now : Nat) (dateStr : String) (s : AppState)
    (file : UFile) (c : String) (h1 : s.uploadedFile = some file)
    (h2 : file.text = Except.ok c) :
    (handleAnalyze now dateStr s).analyses.head?.map (fun a => a.content) =
      some (summaryTemplate file.name (jsWordCount c) (jsLineCount c)) := by
  simp [handleAnalyze, h1, h2, mkAnalysisRecord, mockAnalysis]

/-- Events other than a successful analyze leave `analyses` unchanged;
no event ever removes or reorders existing records. -/
lemma runEvents_ids_nodup_aux : ∀ (es : List Event) (s : AppState),
    (s.analyses.map (fun a => a.id)).Nodup →
    ((analyzeTimes es).map toString).Nodup →
    (∀ t ∈ analyzeTimes es,
      toString t ∉ s.analyses.map (fun a => a.id)) →
    ((runEvents s es).analyses.map (fun a => a.id)).Nodup := by
  intro es
  induction es with
  | nil => intro s hs _ _; exact hs
  | cons e rest ih =>
    intro s hs hts hdisj
    show ((runEvents (applyEvent s e) rest).analyses.map
      (fun a => a.id)).Nodup
    cases e with
    | upload file? =>
      refine ih (handleFileUpload file? s) ?_ hts ?_
      · cases file? <;> simpa [handleFileUpload] using hs
      · intro t ht
        have := hdisj t (by simpa [analyzeTimes] using ht)
        cases file? <;> simpa [handleFileUpload] using this
    | remove =>
      refine ih (handleRemove s) (by simpa [handleRemove] using hs) hts ?_
      intro t ht
      simpa [handleRemove] using hdisj t (by simpa [analyzeTimes] using ht)
    | select a =>
      refine ih (selectAnalysis a s) (by simpa [selectAnalysis] using hs)
        hts ?_
      intro t ht
      simpa [selectAnalysis] using hdisj t (by simpa [analyzeTimes] using ht)
    | analyze now dateStr =>
      have hts' : ((analyzeTimes (Event.analyze now dateStr :: rest)).map
          toString) = toString now :: (analyzeTimes rest).map toString := by
        simp [analyzeTimes]
      rw [hts'] at hts
      rcases handleAnalyze_analyses_cases now dateStr s with hsame | hnew
      · refine ih (handleAnalyze now dateStr s) ?_ hts.of_cons ?_
        · rw [hsame]; exact hs
        · intro t ht
          rw [hsame]
          exact hdisj t (by simp [analyzeTimes, ht])
      · obtain ⟨name, c, hnew⟩ := hnew
        refine ih (handleAnalyze now dateStr s) ?_ hts.of_cons ?_
        · rw [hnew]
          refine List.nodup_cons.mpr ⟨?_, hs⟩
          simpa [mkAnalysisRecord] using
            hdisj now (by simp [analyzeTimes])
        · intro t ht
          rw [hnew]
          simp only [List.map_cons, List.mem_cons, mkAnalysisRecord]
          rintro (heq | hmem)
          · exact (List.nodup_cons.mp hts).1
              (by simpa [heq] using List.mem_map_of_mem toString ht)
          · exact hdisj t (by simp [analyzeTimes, ht]) hmem

set_option maxRecDepth 10000 in
/-- C1 (counterexample): for the held file with decoded content
`"a\nb"`, the summary produced by `handleAnalyze` reports the word count
`fileContent.split(" ").length = 1`, not the number of
whitespace-separated tokens of the content, which is 2. -/
theorem analyze_summary_not_whitespace_tokens :
    (handleAnalyze 0 "d" (handleFileUpload
        (some { name := "doc.txt", text := Except.ok "a\nb" })
        initialState)).analyses.map (fun a => a.content) ≠
      [summaryTemplate "doc.txt" (whitespaceTokenCount "a\nb")
        (lineBreakSegmentCount "a\nb")] := by
  decide

/-- C1 (amended): for every held file whose decoded text content is `c`,
the summary string produced by `handleAnalyze` reports a word count equal
to the number of single-space-separated segments of `c` (the length of
`c.split(" ")`) and a line count equal to the number of
line-break-separated segments of `c`. -/
theorem analyze_summary_reports_split_counts (now : Nat) (dateStr : String)
    (s : AppState) (file : UFile) (c : String)
    (h1 : s.uploadedFile = some file) (h2 : file.text = Except.ok c) :
    (handleAnalyze now dateStr s).analyses.head?.map (fun a => a.content) =
      some (summaryTemplate file.name (jsWordCount c) (jsLineCount c)) :=
  handleAnalyze_ok_head now dateStr s file c h1 h2

/-- Witness for the amended C1 at a concrete session. -/
theorem analyze_summary_reports_split_counts_witness :
    (handleFileUpload (some { name := "doc.txt", text := Except.ok "a\nb" })
        initialState).uploadedFile =
      some { name := "doc.txt", text := Except.ok "a\nb" } ∧
    (handleAnalyze 0 "d" (handleFileUpload
        (some { name := "doc.txt", text := Except.ok "a\nb" })
        initialState)).analyses.head?.map (fun a => a.content) =
      some (summaryTemplate "doc.txt" (jsWordCount "a\nb")
        (jsLineCount "a\nb")) :=
  ⟨rfl, analyze_summary_reports_split_counts 0 "d" _
    { name := "doc.txt", text := Except.ok "a\nb" } "a\nb" rfl rfl⟩

/-- C2: if the decode of the held file's content fails during
`handleAnalyze`, the run leaves the history, the selection and the
held-file reference unchanged and only clears the in-progress flag. -/
theorem analyze_decode_error_only_clears_flag (now : Nat) (dateStr : String)
    (s : AppState) (file : UFile) (err : String)
    (h1 : s.uploadedFile = some file) (h2 : file.text = Except.error err) :
    handleAnalyze now dateStr s = { s with isAnalyzing := false } := by
  simp [handleAnalyze, h1, h2]

/-- Witness for C2 at a concrete state that is mid-analysis. -/
theorem analyze_decode_error_only_clears_flag_witness :
    handleAnalyze 1 "d"
        { uploadedFile := some { name := "a.txt", text := Except.error "boom" },
          analyses := [], selectedAnalysis := none, isAnalyzing := true } =
      { uploadedFile := some { name := "a.txt", text := Except.error "boom" },
        analyses := [], selectedAnalysis := none, isAnalyzing := false } :=
  analyze_decode_error_only_clears_flag 1 "d" _
    { name := "a.txt", text := Except.error "boom" } "boom" rfl rfl

/-- C3: every successful run of `handleAnalyze` with a held file prepends
exactly one new record to the front of the history, so its length grows
by one and the existing records keep their order and contents. -/
theorem analyze_prepends_one_record (now : Nat) (dateStr : String)
    (s : AppState) (file : UFile) (c : String)
    (h1 : s.uploadedFile = some file) (h2 : file.text = Except.ok c) :
    (handleAnalyze now dateStr s).analyses =
      mkAnalysisRecord now dateStr file.name c :: s.analyses := by
  simp [handleAnalyze, h1, h2]

/-- Witness for C3 on a state that already has one history record. -/
theorem analyze_prepends_one_record_witness :
    (handleAnalyze 2 "d"
        { uploadedFile := some { name := "a.txt", text := Except.ok "hi" },
          analyses := [mkAnalysisRecord 1 "d0" "old.txt" "w"],
          selectedAnalysis := none, isAnalyzing := false }).analyses =
      mkAnalysisRecord 2 "d" "a.txt" "hi" ::
        [mkAnalysisRecord 1 "d0" "old.txt" "w"] :=
  analyze_prepends_one_record 2 "d" _
    { name := "a.txt", text := Except.ok "hi" } "hi" rfl rfl

/-- C4: for every selected record, `handleExportTXT` produces an
artifact named `<filename>_analysis.txt`, with MIME type `text/plain`,
whose content is exactly the record's summary text. -/
theorem exportTXT_selected_artifact (s : AppState) (a : Analysis)
    (h : s.selectedAnalysis = some a) :
    handleExportTXT s = some
      { filename := a.filename ++ "_analysis.txt",
        mimeType := "text/plain", content := a.content } := by
  simp [handleExportTXT, h]

/-- Witness for C4 at a concrete selected record. -/
theorem exportTXT_selected_artifact_witness :
    handleExportTXT
        { uploadedFile := none, analyses := [],
          selectedAnalysis := some
            { id := "1", filename := "act.txt", date := "d",
              content := "summary text", originalText := "orig" },
          isAnalyzing := false } =
      some { filename := "act.txt" ++ "_analysis.txt",
             mimeType := "text/plain", content := "summary text" } :=
  exportTXT_selected_artifact _
    { id := "1", filename := "act.txt", date := "d",
      content := "summary text", originalText := "orig" } rfl

/-- C5: running `handleAnalyze` on a held file whose content is
`"a b c"` produces a summary reporting a word count of 3 and a line
count of 1. -/
theorem analyze_abc_three_words_one_line (now : Nat) (dateStr : String)
    (s : AppState) (file : UFile)
    (h1 : s.uploadedFile = some file)
    (h2 : file.text = Except.ok "a b c") :
    (handleAnalyze now dateStr s).analyses.head?.map (fun a => a.content) =
      some (summaryTemplate file.name 3 1) := by
  have h := handleAnalyze_ok_head now dateStr s file "a b c" h1 h2
  have hw : jsWordCount "a b c" = 3 := by decide
  have hl : jsLineCount "a b c" = 1 := by decide
  rw [h, hw, hl]

/-- Witness for C5 at a concrete session. -/
theorem analyze_abc_three_words_one_line_witness :
    (handleAnalyze 3 "d" (handleFileUpload
        (some { name := "act.txt", text := Except.ok "a b c" })
        initialState)).analyses.head?.map (fun a => a.content) =
      some (summaryTemplate "act.txt" 3 1) :=
  analyze_abc_three_words_one_line 3 "d" _
    { name := "act.txt", text := Except.ok "a b c" } rfl rfl

/-- C6: invoking `handleAnalyze` when no file is held is a no-op: the
whole state, including history, selection and the in-progress flag, is
returned unchanged. -/
theorem analyze_no_file_noop (now : Nat) (dateStr : String) (s : AppState)
    (h : s.uploadedFile = none) :
    handleAnalyze now dateStr s = s := by
  simp [handleAnalyze, h]

/-- Witness for C6 at the initial state. -/
theorem analyze_no_file_noop_witness :
    handleAnalyze 4 "d" initialState = initialState :=
  analyze_no_file_noop 4 "d" initialState rfl

/-- C7 (counterexample): two analyze clicks in the same `Date.now()`
millisecond produce two history records with the same identifier, so the
identifiers of the records in the history are not pairwise distinct. -/
theorem session_ids_can_collide :
    ¬ (((runEvents initialState
        [Event.upload (some { name := "a.txt", text := Except.ok "hi" }),
         Event.analyze 5 "d", Event.analyze 5 "d"]).analyses.map
        (fun a => a.id)).Nodup) := by
  decide

/-- C7 (amended): across every sequence of events within one session,
the identifiers of the records in the history list are pairwise
distinct, provided the `Date.now()` values of the analyze clicks render
to pairwise distinct strings. -/
theorem session_ids_nodup_of_times_nodup (es : List Event)
    (h : ((analyzeTimes es).map toString).Nodup) :
    ((runEvents initialState es).analyses.map (fun a => a.id)).Nodup :=
  runEvents_ids_nodup_aux es initialState (by simp [initialState]) h
    (by simp [initialState])

/-- Witness for the amended C7 at a concrete two-analysis session. -/
theorem session_ids_nodup_of_times_nodup_witness :
    ((analyzeTimes
        [Event.upload (some { name := "a.txt", text := Except.ok "hi" }),
         Event.analyze 5 "d", Event.analyze 6 "d"]).map toString).Nodup ∧
    ((runEvents initialState
        [Event.upload (some { name := "a.txt", text := Except.ok "hi" }),
         Event.analyze 5 "d", Event.analyze 6 "d"]).analyses.map
        (fun a => a.id)).Nodup :=
  ⟨by decide, session_ids_nodup_of_times_nodup _ (by decide)⟩

/-- C8 (counterexample): starting from a state that already holds a
file, uploading another file and then removing it does not restore the
original state: the previously held file is gone, so the round trip is
not the identity on every state. -/
theorem upload_remove_roundtrip_not_identity :
    handleRemove (handleFileUpload
        (some { name := "b.txt", text := Except.ok "" })
        { uploadedFile := some { name := "a.txt", text := Except.ok "x" },
          analyses := [], selectedAnalysis := none, isAnalyzing := false }) ≠
      { uploadedFile := some { name := "a.txt", text := Except.ok "x" },
        analyses := [], selectedAnalysis := none, isAnalyzing := false } := by
  decide

/-- C8 (amended): applying `handleFileUpload` with a file and then
`handleRemove` always leaves the held-file reference empty and the rest
of the state (history, selection, in-progress flag) unchanged; the round
trip is the identity exactly on states whose held-file reference was
already empty. -/
theorem upload_remove_clears_file_only (s : AppState) (f : UFile) :
    handleRemove (handleFileUpload (some f) s) =
      { s with uploadedFile := none } := by
  simp [handleRemove, handleFileUpload]

/-- C9: for a held file whose decoded content is the empty string, the
summary produced by `handleAnalyze` reports a word count of 1 and a line
count of 1, because splitting the empty string yields one empty
segment. -/
theorem analyze_empty_content_counts_one (now : Nat) (dateStr : String)
    (s : AppState) (file : UFile)
    (h1 : s.uploadedFile = some file) (h2 : file.text = Except.ok "") :
    (handleAnalyze now dateStr s).analyses.head?.map (fun a => a.content) =
      some (summaryTemplate file.name 1 1) := by
  have h := handleAnalyze_ok_head now dateStr s file "" h1 h2
  have hw : jsWordCount "" = 1 := by decide
  have hl : jsLineCount "" = 1 := by decide
  rw [h, hw, hl]

/-- Witness for C9 at a concrete session with an empty file. -/
theorem analyze_empty_content_counts_one_witness :
    (handleAnalyze 6 "d" (handleFileUpload
        (some { name := "e.txt", text := Except.ok "" })
        initialState)).analyses.head?.map (fun a => a.content) =
      some (summaryTemplate "e.txt" 1 1) :=
  analyze_empty_content_counts_one 6 "d" _
    { name := "e.txt", text := Except.ok "" } rfl rfl

/-- C10: a successful `handleAnalyze` run leaves the held-file reference
unchanged, and analyzing again on the same held file produces a second
head record with the same filename and the same summary content as the
first. -/
theorem analyze_keeps_held_file (now : Nat) (dateStr : String)
    (now2 : Nat) (dateStr2 : String) (s : AppState) (file : UFile)
    (c : String)
    (h1 : s.uploadedFile = some file) (h2 : file.text = Except.ok c) :
    (handleAnalyze now dateStr s).uploadedFile = some file ∧
    (handleAnalyze now2 dateStr2 (handleAnalyze now dateStr s)).analyses.head?.map
        (fun a => (a.filename, a.content)) =
      (handleAnalyze now dateStr s).analyses.head?.map
        (fun a => (a.filename, a.content)) := by
  have hfile : (handleAnalyze now dateStr s).uploadedFile = some file := by
    simp [handleAnalyze, h1, h2]
  refine ⟨hfile, ?_⟩
  simp [handleAnalyze, h1, h2, hfile, mkAnalysisRecord]

/-- Witness for C10 at a concrete double-analysis session. -/
theorem analyze_keeps_held_file_witness :
    (handleAnalyze 7 "d" (handleFileUpload
        (some { name := "a.txt", text := Except.ok "hi" })
        initialState)).uploadedFile =
      some { name := "a.txt", text := Except.ok "hi" } ∧
    (handleAnalyze 8 "d2" (handleAnalyze 7 "d" (handleFileUpload
        (some { name := "a.txt", text := Except.ok "hi" })
        initialState))).analyses.head?.map
        (fun a => (a.filename, a.content)) =
      (handleAnalyze 7 "d" (handleFileUpload
        (some { name := "a.txt", text := Except.ok "hi" })
        initialState)).analyses.head?.map
        (fun a => (a.filename, a.content)) :=
  analyze_keeps_held_file 7 "d" 8 "d2" _
    { name := "a.txt", text := Except.ok "hi" } "hi" rfl rfl

end LegislativeActsAnalyzer
